import Mathlib

/-!
Shallow embedding of libtinyiiod's registry, dispatcher and descriptor
renderer (src/iio.c, src/iio.h).

Conventions of the embedding:
* C linked lists (`attribute_list`, `channel_list`, `device_list`) become
  Lean `List`s in the same order; the `for_each_*` macros become ordinary
  list recursion.
* Strings are `String`; `strncpy(dst, src, N)` truncation is modelled as
  `take N` on the character data.
* Accessor function pointers become `Option` of Lean functions over the
  semantic arguments; a `NULL` slot is `none`.  Output buffers are not
  modelled: only the `ssize_t` value an accessor returns is observable
  here, so an accessor is a function to `Int`.
* `ssize_t` results are `Int`; the errno constants carry their Linux
  values, so `-ENOENT`, `-ENOSYS`, `-EINVAL` are the literal return
  values of the C code.
* `assert` in the renderer is modelled as the `error` branch of `Except`,
  carrying the buffer contents at the moment the assertion fires (the
  check happens before the corresponding `strcat` batch, as in the C).
-/

set_option maxRecDepth 4000

def IIO_XML_SIZE : Nat := 1024 * 3
def ATTR_NAME_MAX_SIZE : Nat := 32
def DEV_NAME_STR_MAX_SIZE : Nat := 32
def CHN_ID_STR_MAX_SIZE : Nat := 32
def CONTEXT_NAME_MAX_SIZE : Nat := 32
def CONTEXT_DESC_MAX_SIZE : Nat := 32
def TYPE_STR_MAX_SIZE : Nat := 16

def ENOENT : Int := 2
def ENOMEM : Int := 12
def EINVAL : Int := 22
def ENOSYS : Int := 38

/-- `unsigned int` modulus. -/
def UINT_MOD : Nat := 2 ^ 32

/-- struct attribute (iio.h): a bounded name. -/
structure Attribute where
  name : String
deriving DecidableEq

/-- struct channel (iio.h): bounded id and type strings plus an attribute list. -/
structure Channel where
  id : String
  type : String
  attrs : List Attribute
deriving DecidableEq

/-- struct attr_accessors (iio.h).  read_attr gets (data, attr, len, type);
write_attr additionally gets the source buffer string. -/
structure AttrAccessors where
  read_attr : Option (Nat → String → Nat → Nat → Int)
  write_attr : Option (Nat → String → String → Nat → Nat → Int)

/-- struct chn_accessors (iio.h). -/
structure ChnAccessors where
  read_attr : Option (Nat → String → Bool → String → Nat → Int)
  write_attr : Option (Nat → String → Bool → String → String → Nat → Int)
  read_data : Option (Nat → Nat → Nat → Int)
  write_data : Option (Nat → String → Nat → Nat → Int)

/-- struct device (iio.h). -/
structure Device where
  name : String
  id : Nat
  data : Nat
  channels : List Channel
  attrs : List Attribute
  attr_accessors : AttrAccessors
  chn_accessors : ChnAccessors

/-- struct context (iio.h): name, description, device list and the xml
buffer.  The tinyiiod wiring (`ops`, `iiod`) is outside the claims. -/
structure Context where
  name : String
  description : String
  devices : List Device
  xml : String

/-- Characters accepted by C `isspace` in the default locale. -/
def isSpaceC (c : Char) : Bool :=
  c = ' ' || c = '\t' || c = '\n' || c = '\x0b' || c = '\x0c' || c = '\r'

def skipSpaces : List Char → List Char
  | [] => []
  | c :: cs => if isSpaceC c then skipSpaces cs else c :: cs

def atoiDigits : List Char → Nat → Nat
  | [], acc => acc
  | c :: cs, acc =>
      if c.isDigit then atoiDigits cs (acc * 10 + (c.toNat - '0'.toNat)) else acc

/-- C `atoi`: skip whitespace, optional sign, then leading digits; a string
with no leading digits yields 0. -/
def atoi (s : String) : Int :=
  match skipSpaces s.data with
  | '-' :: cs => -(atoiDigits cs 0 : Int)
  | '+' :: cs => (atoiDigits cs 0 : Int)
  | cs => (atoiDigits cs 0 : Int)

/-- The comparison `atoi(device) == IIO_ID(dev)` (int vs unsigned int):
the int operand is converted to unsigned. -/
def devMatch (s : String) (d : Device) : Bool :=
  (atoi s).emod (UINT_MOD : Int) = ((d.id % UINT_MOD : Nat) : Int)

/-- First device whose numeric id matches the textual identifier
(the outer `for_each_device` loop of every dispatch function). -/
def findDevice (s : String) : List Device → Option Device
  | [] => none
  | d :: ds => if devMatch s d then some d else findDevice s ds

/-- First attribute with the requested name (`for_each_attribute` +
`strcmp(IIO_NAME(attribute), attr) == 0`). -/
def findAttr (nm : String) : List Attribute → Option Attribute
  | [] => none
  | a :: rest => if a.name = nm then some a else findAttr nm rest

/-- First channel whose id string matches (`for_each_channel` +
`strcmp(IIO_ID(chn), channel) == 0`); the direction flag plays no part. -/
def findChannel (chId : String) : List Channel → Option Channel
  | [] => none
  | c :: cs => if c.id = chId then some c else findChannel chId cs

/-- read_attr (iio.c lines 60-94). -/
def read_attr (ctx : Context) (device attr : String) (len ty : Nat) : Int :=
  match findDevice device ctx.devices with
  | none => -ENOENT
  | some dev =>
    match findAttr attr dev.attrs with
    | none => -ENOENT
    | some _ =>
      match dev.attr_accessors.read_attr with
      | none => -ENOSYS
      | some f => f dev.data attr len ty

/-- write_attr (iio.c lines 96-130). -/
def write_attr (ctx : Context) (device attr buf : String) (len ty : Nat) : Int :=
  match findDevice device ctx.devices with
  | none => -ENOENT
  | some dev =>
    match findAttr attr dev.attrs with
    | none => -ENOENT
    | some _ =>
      match dev.attr_accessors.write_attr with
      | none => -ENOSYS
      | some f => f dev.data attr buf len ty

/-- ch_read_attr (iio.c lines 132-174).  Channel resolution is by id
string only; `ch_out` is passed straight to the accessor. -/
def ch_read_attr (ctx : Context) (device channel : String) (ch_out : Bool)
    (attr : String) (len : Nat) : Int :=
  match findDevice device ctx.devices with
  | none => -ENOENT
  | some dev =>
    match findChannel channel dev.channels with
    | none => -ENOENT
    | some chn =>
      match findAttr attr chn.attrs with
      | none => -ENOENT
      | some _ =>
        match dev.chn_accessors.read_attr with
        | none => -ENOSYS
        | some f => f dev.data channel ch_out attr len

/-- ch_write_attr (iio.c lines 176-218). -/
def ch_write_attr (ctx : Context) (device channel : String) (ch_out : Bool)
    (attr buf : String) (len : Nat) : Int :=
  match findDevice device ctx.devices with
  | none => -ENOENT
  | some dev =>
    match findChannel channel dev.channels with
    | none => -ENOENT
    | some chn =>
      match findAttr attr chn.attrs with
      | none => -ENOENT
      | some _ =>
        match dev.chn_accessors.write_attr with
        | none => -ENOSYS
        | some f => f dev.data channel ch_out attr buf len

/-- read_data (iio.c lines 220-245). -/
def read_data (ctx : Context) (device : String) (offset bytes_count : Nat) : Int :=
  match findDevice device ctx.devices with
  | none => -ENOENT
  | some dev =>
    match dev.chn_accessors.read_data with
    | none => -ENOSYS
    | some f => f dev.data offset bytes_count

/-- write_data (iio.c lines 247-272). -/
def write_data (ctx : Context) (device buf : String) (offset bytes_count : Nat) : Int :=
  match findDevice device ctx.devices with
  | none => -ENOENT
  | some dev =>
    match dev.chn_accessors.write_data with
    | none => -ENOSYS
    | some f => f dev.data buf offset bytes_count

/-- `strncpy(dst, src, n)` viewed as the stored string: the first `n`
characters of the source (shorter sources are stored whole). -/
def strncpyTrunc (s : String) (n : Nat) : String := String.mk (s.data.take n)

/-- iio_new_static_attribute (iio.c lines 421-430). -/
def iio_new_static_attribute (name : String) : Attribute :=
  ⟨strncpyTrunc name ATTR_NAME_MAX_SIZE⟩

/-- iio_new_static_channel (iio.c lines 392-407). -/
def iio_new_static_channel (id type : String) : Channel :=
  ⟨strncpyTrunc id CHN_ID_STR_MAX_SIZE, strncpyTrunc type TYPE_STR_MAX_SIZE, []⟩

/-- iio_new_static_device (iio.c lines 444-466); the name is copied with
length bound ATTR_NAME_MAX_SIZE, exactly as in the source. -/
def iio_new_static_device (name : String) (id data : Nat)
    (attr_accessors : AttrAccessors) (chn_accessors : ChnAccessors) : Device :=
  { name := strncpyTrunc name ATTR_NAME_MAX_SIZE
    id := id % UINT_MOD
    data := data
    channels := []
    attrs := []
    attr_accessors := attr_accessors
    chn_accessors := chn_accessors }

/-- The duplicate scan of iio_register_attribute: `none` when an existing
element has the same name (the immediate `-EINVAL` return), otherwise the
number of elements traversed. -/
def regScanAttr (nm : String) : List Attribute → Nat → Option Nat
  | [], acc => some acc
  | a :: rest, acc =>
      if a.name = nm then none else regScanAttr nm rest (acc + 1)

/-- iio_register_attribute (iio.c lines 511-560), on the list the
`attribute_list` represents.  Returns the C `int` result and the new list. -/
def iio_register_attribute (attr : Attribute) (list : List Attribute) :
    Int × List Attribute :=
  match list with
  | [] => (1, [attr])
  | _ =>
    match regScanAttr attr.name list 0 with
    | none => (-EINVAL, list)
    | some n => ((n : Int) + 1, list ++ [attr])

/-- The duplicate scan of iio_register_channel: conflict when both the type
and the id strings match. -/
def regScanChn (ch : Channel) : List Channel → Nat → Option Nat
  | [], acc => some acc
  | c :: cs, acc =>
      if c.type = ch.type ∧ c.id = ch.id then none else regScanChn ch cs (acc + 1)

/-- iio_register_channel (iio.c lines 562-611). -/
def iio_register_channel (channel : Channel) (list : List Channel) :
    Int × List Channel :=
  match list with
  | [] => (1, [channel])
  | _ =>
    match regScanChn channel list 0 with
    | none => (-EINVAL, list)
    | some n => ((n : Int) + 1, list ++ [channel])

/-- The duplicate scan of iio_register_device, kept verbatim from the
source: the id conflict test compares `IIO_ID(dev)` with itself
(`IIO_ID(dev) == IIO_ID(dev)`), so it is true at every existing element. -/
def regScanDev (device : Device) : List Device → Nat → Option Nat
  | [], acc => some acc
  | d :: ds, acc =>
      if d.name = device.name ∨ d.id = d.id then none
      else regScanDev device ds (acc + 1)

/-- iio_register_device (iio.c lines 613-661). -/
def iio_register_device (device : Device) (list : List Device) :
    Int × List Device :=
  match list with
  | [] => (1, [device])
  | _ =>
    match regScanDev device list 0 with
    | none => (-EINVAL, list)
    | some n => ((n : Int) + 1, list ++ [device])

/-- The DTD preamble (iio.c lines 40-56), the concatenation of the
adjacent C string literals. -/
def dtd : String :=
  "<?xml version=\"1.0\" encoding=\"utf-8\"?>" ++
  "<!DOCTYPE context [" ++
  "<!ELEMENT context (device)*>" ++
  "<!ELEMENT device (channel | attribute | debug-attribute | buffer-attribute)*>" ++
  "<!ELEMENT channel (scan-element?, attribute*)>" ++
  "<!ELEMENT attribute EMPTY>" ++
  "<!ELEMENT scan-element EMPTY>" ++
  "<!ELEMENT debug-attribute EMPTY>" ++
  "<!ELEMENT buffer-attribute EMPTY>" ++
  "<!ATTLIST context name CDATA #REQUIRED description CDATA #IMPLIED>" ++
  "<!ATTLIST device id CDATA #REQUIRED name CDATA #IMPLIED>" ++
  "<!ATTLIST channel id CDATA #REQUIRED type (input|output) #REQUIRED name CDATA #IMPLIED>" ++
  "<!ATTLIST scan-element index CDATA #REQUIRED format CDATA #REQUIRED scale CDATA #IMPLIED>" ++
  "<!ATTLIST attribute name CDATA #REQUIRED filename CDATA #IMPLIED>" ++
  "<!ATTLIST debug-attribute name CDATA #REQUIRED>" ++
  "<!ATTLIST buffer-attribute name CDATA #REQUIRED value CDATA #IMPLIED>]>"

/-- Concatenation of a batch of pieces, in the order the C code
`strcat`s them. -/
def strConcat : List String → String
  | [] => ""
  | s :: ss => s ++ strConcat ss

/-- The renderer's running state: the byte count the C code tracks in
`index` and the buffer contents built so far. -/
structure RenderState where
  index : Nat
  buf : String
deriving DecidableEq

/-- One increment-assert-strcat batch of generate_xml: `index` grows by
the total length of the pieces, the bound `index < IIO_XML_SIZE` is
asserted, and only then are the pieces appended.  A failed assertion is
the `error` branch and carries the buffer as it stood. -/
def emit (st : RenderState) (pieces : List String) : Except String RenderState :=
  if st.index + (strConcat pieces).length < IIO_XML_SIZE then
    Except.ok ⟨st.index + (strConcat pieces).length, st.buf ++ strConcat pieces⟩
  else Except.error st.buf

/-- populate_attributes (iio.c lines 274-301). -/
def populate_attributes (st : RenderState) : List Attribute → Except String RenderState
  | [] => Except.ok st
  | a :: rest =>
    match emit st ["<attribute name=\"", a.name, "\" />"] with
    | Except.error e => Except.error e
    | Except.ok st1 => populate_attributes st1 rest

/-- `sprintf(id_str, "%d", id)` for the stored `unsigned int` id: the
value reinterpreted as a signed 32-bit int, in decimal. -/
def sprintf_d (id : Nat) : String :=
  if id < 2 ^ 31 then toString id else toString ((id : Int) - (UINT_MOD : Int))

/-- The channel body of generate_xml's inner loop (iio.c lines 350-368). -/
def renderChannel (st : RenderState) (c : Channel) : Except String RenderState :=
  match emit st ["<channel id=\"", c.id, "\" type=\"", c.type, "\">"] with
  | Except.error e => Except.error e
  | Except.ok st1 =>
    match populate_attributes st1 c.attrs with
    | Except.error e => Except.error e
    | Except.ok st2 => emit st2 ["</channel>"]

def renderChannels (st : RenderState) : List Channel → Except String RenderState
  | [] => Except.ok st
  | c :: cs =>
    match renderChannel st c with
    | Except.error e => Except.error e
    | Except.ok st1 => renderChannels st1 cs

/-- The device body of generate_xml's outer loop (iio.c lines 335-376). -/
def renderDevice (st : RenderState) (d : Device) : Except String RenderState :=
  match emit st ["<device id=\"", sprintf_d d.id, "\" name=\"", d.name, "\">"] with
  | Except.error e => Except.error e
  | Except.ok st1 =>
    match renderChannels st1 d.channels with
    | Except.error e => Except.error e
    | Except.ok st2 =>
      match populate_attributes st2 d.attrs with
      | Except.error e => Except.error e
      | Except.ok st3 => emit st3 ["</device>"]

def renderDevices (st : RenderState) : List Device → Except String RenderState
  | [] => Except.ok st
  | d :: ds =>
    match renderDevice st d with
    | Except.error e => Except.error e
    | Except.ok st1 => renderDevices st1 ds

/-- The body of generate_xml (iio.c lines 303-383) as a function of the
context fields it reads; the result is the final buffer contents, or, on
a failed assertion, the partial buffer at that point. -/
def renderDoc (name description : String) (devs : List Device) : Except String String :=
  match emit ⟨0, ""⟩ [dtd] with
  | Except.error e => Except.error e
  | Except.ok st0 =>
  match emit st0 ["<context name=\"", name, "\" "] with
  | Except.error e => Except.error e
  | Except.ok st1 =>
  match emit st1 ["description=\"", description, "\">"] with
  | Except.error e => Except.error e
  | Except.ok st2 =>
  match renderDevices st2 devs with
  | Except.error e => Except.error e
  | Except.ok st3 =>
  match emit st3 ["</context>"] with
  | Except.error e => Except.error e
  | Except.ok st4 => Except.ok st4.buf

/-- generate_xml writes into `context->xml`: on success the context with
the fresh document in its buffer; on a failed assertion the context whose
buffer holds the partially written document. -/
def generate_xml (ctx : Context) : Except Context Context :=
  match renderDoc ctx.name ctx.description ctx.devices with
  | Except.ok s => Except.ok { ctx with xml := s }
  | Except.error e => Except.error { ctx with xml := e }

/-- The attribute element as a plain concatenation (specification-side
rendering of one attribute). -/
def attrXml (a : Attribute) : String :=
  "<attribute name=\"" ++ a.name ++ "\" />"

/-- The channel element as a plain concatenation. -/
def channelXml (c : Channel) : String :=
  "<channel id=\"" ++ c.id ++ "\" type=\"" ++ c.type ++ "\">" ++
  strConcat (c.attrs.map attrXml) ++ "</channel>"

/-- The device element as a plain concatenation: channels in registration
order, then the device's own attributes, then the closing tag. -/
def deviceXml (d : Device) : String :=
  "<device id=\"" ++ sprintf_d d.id ++ "\" name=\"" ++ d.name ++ "\">" ++
  strConcat (d.channels.map channelXml) ++
  strConcat (d.attrs.map attrXml) ++ "</device>"

/-- The whole document as a plain concatenation: preamble, context
element, devices in registration order, closing tag. -/
def specDoc (ctx : Context) : String :=
  dtd ++ "<context name=\"" ++ ctx.name ++ "\" " ++
  "description=\"" ++ ctx.description ++ "\">" ++
  strConcat (ctx.devices.map deviceXml) ++ "</context>"

/-- A textual identifier is malformed when, after the whitespace and the
optional sign C `atoi` accepts, no digit follows: exactly the inputs on
which `atoi` finds no number and yields 0. -/
def malformedId (s : String) : Bool :=
  match skipSpaces s.data with
  | [] => true
  | c :: cs =>
    if c = '-' ∨ c = '+' then
      match cs with
      | [] => true
      | d :: _ => !d.isDigit
    else !c.isDigit

/-- The context a generate_xml run leaves behind, whether it completed or
died on an assertion. -/
def resultCtx : Except Context Context → Context
  | Except.ok c => c
  | Except.error c => c

def isOkE : Except Context Context → Bool
  | Except.ok _ => true
  | Except.error _ => false

/-- Registering a batch of attributes in order, starting from a given
collection: the final collection. -/
def registerFold (acc : List Attribute) : List Attribute → List Attribute
  | [] => acc
  | a :: rest => registerFold (iio_register_attribute a acc).2 rest

/-- Registering a batch of attributes in order: the return codes of the
successive iio_register_attribute calls. -/
def registerCodes (acc : List Attribute) : List Attribute → List Int
  | [] => []
  | a :: rest =>
      (iio_register_attribute a acc).1 ::
      registerCodes (iio_register_attribute a acc).2 rest

/-! ### Concrete registries used to instantiate the theorems -/

def noAttrAcc : AttrAccessors := ⟨none, none⟩

def noChnAcc : ChnAccessors := ⟨none, none, none, none⟩

/-- Two devices with distinct names and distinct numeric ids. -/
def devAdc : Device :=
  { name := "adc", id := 0, data := 0, channels := [], attrs := [],
    attr_accessors := noAttrAcc, chn_accessors := noChnAcc }

def devDac : Device :=
  { name := "dac", id := 1, data := 0, channels := [], attrs := [],
    attr_accessors := noAttrAcc, chn_accessors := noChnAcc }

/-- An input channel carrying one attribute. -/
def chnVolt : Channel := ⟨"voltage0", "input", [⟨"scale"⟩]⟩

/-- A device whose only channel is the input channel above, with channel
accessors that report which arguments they were called with via distinct
return codes. -/
def devChan : Device :=
  { name := "adc", id := 0, data := 11, channels := [chnVolt], attrs := [],
    attr_accessors := noAttrAcc,
    chn_accessors :=
      ⟨some (fun _ _ _ _ _ => 7), some (fun _ _ _ _ _ _ => 8), none, none⟩ }

def ctxChan : Context := ⟨"ctx", "desc", [devChan], ""⟩

/-- A device with numeric id 1 and a single attribute "freq". -/
def devFreq : Device :=
  { name := "dev", id := 1, data := 3, channels := [], attrs := [⟨"freq"⟩],
    attr_accessors := ⟨some (fun _ _ _ _ => 9), none⟩,
    chn_accessors := noChnAcc }

def ctxFreq : Context := ⟨"ctx", "desc", [devFreq], ""⟩

/-- A registry that does contain a device with numeric id 0. -/
def devZero : Device :=
  { name := "zero", id := 0, data := 4, channels := [], attrs := [⟨"x"⟩],
    attr_accessors := ⟨some (fun _ _ _ _ => 5), none⟩,
    chn_accessors := ⟨none, none, some (fun _ _ _ => 6), none⟩ }

def ctxZero : Context := ⟨"ctx", "desc", [devZero], ""⟩

/-- A device with a mixed accessor population: read slots installed,
write slots left null. -/
def devSlots : Device :=
  { name := "dev", id := 1, data := 2, channels := [⟨"c0", "output", [⟨"b"⟩]⟩],
    attrs := [⟨"a"⟩],
    attr_accessors := ⟨some (fun _ _ _ _ => 21), none⟩,
    chn_accessors :=
      ⟨some (fun _ _ _ _ _ => 22), none, some (fun _ _ _ => 23), none⟩ }

def ctxSlots : Context := ⟨"ctx", "desc", [devSlots], ""⟩

/-- Two devices registered in order A then B, with channels and
attributes, for the rendering-order and idempotence theorems. -/
def devOrd0 : Device :=
  { name := "alpha", id := 0, data := 0,
    channels := [⟨"in0", "input", [⟨"scale"⟩]⟩], attrs := [⟨"rate"⟩],
    attr_accessors := noAttrAcc, chn_accessors := noChnAcc }

def devOrd1 : Device :=
  { name := "beta", id := 1, data := 0, channels := [], attrs := [⟨"gain"⟩],
    attr_accessors := noAttrAcc, chn_accessors := noChnAcc }

def ctxOrder : Context := ⟨"local", "test context", [devOrd0, devOrd1], "stale"⟩

/-- A 33-character attribute name and its 32-character truncation. -/
def longName : String := "aaaaaaaaaaaaaaaaaaaaaaaaaaaaaaaab"

def longName2 : String := "aaaaaaaaaaaaaaaaaaaaaaaaaaaaaaaac"

def devTrunc : Device :=
  { name := "dev", id := 1, data := 0, channels := [],
    attrs := [iio_new_static_attribute longName],
    attr_accessors := ⟨some (fun _ _ _ _ => 7), none⟩,
    chn_accessors := noChnAcc }

def ctxTrunc : Context := ⟨"ctx", "desc", [devTrunc], ""⟩

/-- A registry whose serialized descriptor is larger than IIO_XML_SIZE:
one device with 60 attributes. -/
def bigAttrs : List Attribute :=
  (List.range 60).map (fun i => ⟨"attribute_number_" ++ toString i⟩)

def devBig : Device :=
  { name := "big", id := 1, data := 0, channels := [], attrs := bigAttrs,
    attr_accessors := noAttrAcc, chn_accessors := noChnAcc }

def ctxBig : Context := ⟨"ctx", "desc", [devBig], "previous"⟩

/-! ### Lemmas about one emit batch -/

lemma emit_ok_eq {st st' : RenderState} {ps : List String}
    (h : emit st ps = Except.ok st') :
    st'.buf = st.buf ++ strConcat ps ∧
    st'.index = st.index + (strConcat ps).length ∧
    st'.index < IIO_XML_SIZE := by
  unfold emit at h
  split at h
  · cases h
    rename_i hlt
    exact ⟨rfl, rfl, hlt⟩
  · cases h

lemma emit_err_eq {st : RenderState} {ps : List String} {b : String}
    (h : emit st ps = Except.error b) : b = st.buf := by
  unfold emit at h
  split at h
  · cases h
  · cases h
    rfl

/-- The running-state invariant of the renderer: `index` equals the
number of characters written so far, and the last assertion passed. -/
def InvR (st : RenderState) : Prop :=
  st.index = st.buf.length ∧ st.index < IIO_XML_SIZE

lemma emit_inv_ok {st st' : RenderState} {ps : List String}
    (hs : st.index = st.buf.length) (h : emit st ps = Except.ok st') :
    InvR st' := by
  obtain ⟨hb, hi, hlt⟩ := emit_ok_eq h
  refine ⟨?_, hlt⟩
  rw [hb, hi, hs, String.length_append]

lemma emit_inv_err {st : RenderState} {ps : List String} {b : String}
    (hInv : InvR st) (h : emit st ps = Except.error b) :
    b.length < IIO_XML_SIZE := by
  rw [emit_err_eq h, ← hInv.1]
  exact hInv.2

/-! ### The attribute loop -/

lemma populate_ok (as : List Attribute) : ∀ st st' : RenderState,
    populate_attributes st as = Except.ok st' →
    st'.buf = st.buf ++ strConcat (as.map attrXml) ∧
    st'.index = st.index + (strConcat (as.map attrXml)).length := by
  induction as with
  | nil =>
      intro st st' h
      cases h
      simp [strConcat]
  | cons a rest ih =>
      intro st st' h
      simp only [populate_attributes] at h
      split at h
      · cases h
      · rename_i st1 hemit
        obtain ⟨hb, hi, _⟩ := emit_ok_eq hemit
        obtain ⟨hb2, hi2⟩ := ih st1 st' h
        constructor
        · rw [hb2, hb]
          simp [strConcat, attrXml, String.append_assoc, String.append_empty]
        · rw [hi2, hi]
          simp [strConcat, attrXml, String.length_append]
          omega

lemma populate_inv (as : List Attribute) : ∀ st : RenderState, InvR st →
    (∀ st', populate_attributes st as = Except.ok st' → InvR st') ∧
    (∀ b, populate_attributes st as = Except.error b → b.length < IIO_XML_SIZE) := by
  induction as with
  | nil =>
      intro st hInv
      refine ⟨fun st' h => ?_, fun b h => ?_⟩
      · cases h; exact hInv
      · cases h
  | cons a rest ih =>
      intro st hInv
      constructor
      · intro st' h
        simp only [populate_attributes] at h
        split at h
        · cases h
        · rename_i st1 hemit
          exact ((ih st1 (emit_inv_ok hInv.1 hemit)).1) st' h
      · intro b h
        simp only [populate_attributes] at h
        split at h
        · cases h
          rename_i e hemit
          exact emit_inv_err hInv hemit
        · rename_i st1 hemit
          exact ((ih st1 (emit_inv_ok hInv.1 hemit)).2) b h

/-! ### The channel loop -/

lemma renderChannel_ok {st st' : RenderState} {c : Channel}
    (h : renderChannel st c = Except.ok st') :
    st'.buf = st.buf ++ channelXml c ∧
    st'.index = st.index + (channelXml c).length := by
  unfold renderChannel at h
  split at h
  · cases h
  · rename_i st1 hemit
    split at h
    · cases h
    · rename_i st2 hpop
      obtain ⟨hb1, hi1, _⟩ := emit_ok_eq hemit
      obtain ⟨hb2, hi2⟩ := populate_ok _ _ _ hpop
      obtain ⟨hb3, hi3, _⟩ := emit_ok_eq h
      constructor
      · rw [hb3, hb2, hb1]
        simp [strConcat, channelXml, String.append_assoc, String.append_empty]
      · rw [hi3, hi2, hi1]
        simp [strConcat, channelXml, String.length_append]
        omega

lemma renderChannel_inv {st : RenderState} {c : Channel} (hInv : InvR st) :
    (∀ st', renderChannel st c = Except.ok st' → InvR st') ∧
    (∀ b, renderChannel st c = Except.error b → b.length < IIO_XML_SIZE) := by
  constructor
  · intro st' h
    unfold renderChannel at h
    split at h
    · cases h
    · rename_i st1 hemit
      split at h
      · cases h
      · rename_i st2 hpop
        have h1 := emit_inv_ok hInv.1 hemit
        have h2 := (populate_inv _ _ h1).1 _ hpop
        exact emit_inv_ok h2.1 h
  · intro b h
    unfold renderChannel at h
    split at h
    · cases h
      rename_i e hemit
      exact emit_inv_err hInv hemit
    · rename_i st1 hemit
      have h1 := emit_inv_ok hInv.1 hemit
      split at h
      · cases h
        rename_i e hpop
        exact (populate_inv _ _ h1).2 _ hpop
      · rename_i st2 hpop
        have h2 := (populate_inv _ _ h1).1 _ hpop
        exact emit_inv_err h2 h

lemma renderChannels_ok (cs : List Channel) : ∀ st st' : RenderState,
    renderChannels st cs = Except.ok st' →
    st'.buf = st.buf ++ strConcat (cs.map channelXml) ∧
    st'.index = st.index + (strConcat (cs.map channelXml)).length := by
  induction cs with
  | nil =>
      intro st st' h
      cases h
      simp [strConcat]
  | cons c rest ih =>
      intro st st' h
      simp only [renderChannels] at h
      split at h
      · cases h
      · rename_i st1 hc
        obtain ⟨hb1, hi1⟩ := renderChannel_ok hc
        obtain ⟨hb2, hi2⟩ := ih st1 st' h
        constructor
        · rw [hb2, hb1]
          simp [strConcat, String.append_assoc]
        · rw [hi2, hi1]
          simp [strConcat, String.length_append]
          omega

lemma renderChannels_inv (cs : List Channel) : ∀ st : RenderState, InvR st →
    (∀ st', renderChannels st cs = Except.ok st' → InvR st') ∧
    (∀ b, renderChannels st cs = Except.error b → b.length < IIO_XML_SIZE) := by
  induction cs with
  | nil =>
      intro st hInv
      refine ⟨fun st' h => ?_, fun b h => ?_⟩
      · cases h; exact hInv
      · cases h
  | cons c rest ih =>
      intro st hInv
      constructor
      · intro st' h
        simp only [renderChannels] at h
        split at h
        · cases h
        · rename_i st1 hc
          exact (ih st1 ((renderChannel_inv hInv).1 _ hc)).1 st' h
      · intro b h
        simp only [renderChannels] at h
        split at h
        · cases h
          rename_i e hc
          exact (renderChannel_inv hInv).2 _ hc
        · rename_i st1 hc
          exact (ih st1 ((renderChannel_inv hInv).1 _ hc)).2 b h

/-! ### The device loop -/

lemma renderDevice_ok {st st' : RenderState} {d : Device}
    (h : renderDevice st d = Except.ok st') :
    st'.buf = st.buf ++ deviceXml d ∧
    st'.index = st.index + (deviceXml d).length := by
  unfold renderDevice at h
  split at h
  · cases h
  · rename_i st1 hemit
    split at h
    · cases h
    · rename_i st2 hchn
      split at h
      · cases h
      · rename_i st3 hpop
        obtain ⟨hb1, hi1, _⟩ := emit_ok_eq hemit
        obtain ⟨hb2, hi2⟩ := renderChannels_ok _ _ _ hchn
        obtain ⟨hb3, hi3⟩ := populate_ok _ _ _ hpop
        obtain ⟨hb4, hi4, _⟩ := emit_ok_eq h
        constructor
        · rw [hb4, hb3, hb2, hb1]
          simp [strConcat, deviceXml, String.append_assoc, String.append_empty]
        · rw [hi4, hi3, hi2, hi1]
          simp [strConcat, deviceXml, String.length_append]
          omega

lemma renderDevice_inv {st : RenderState} {d : Device} (hInv : InvR st) :
    (∀ st', renderDevice st d = Except.ok st' → InvR st') ∧
    (∀ b, renderDevice st d = Except.error b → b.length < IIO_XML_SIZE) := by
  constructor
  · intro st' h
    unfold renderDevice at h
    split at h
    · cases h
    · rename_i st1 hemit
      have h1 := emit_inv_ok hInv.1 hemit
      split at h
      · cases h
      · rename_i st2 hchn
        have h2 := (renderChannels_inv _ _ h1).1 _ hchn
        split at h
        · cases h
        · rename_i st3 hpop
          have h3 := (populate_inv _ _ h2).1 _ hpop
          exact emit_inv_ok h3.1 h
  · intro b h
    unfold renderDevice at h
    split at h
    · cases h
      rename_i e hemit
      exact emit_inv_err hInv hemit
    · rename_i st1 hemit
      have h1 := emit_inv_ok hInv.1 hemit
      split at h
      · cases h
        rename_i e hchn
        exact (renderChannels_inv _ _ h1).2 _ hchn
      · rename_i st2 hchn
        have h2 := (renderChannels_inv _ _ h1).1 _ hchn
        split at h
        · cases h
          rename_i e hpop
          exact (populate_inv _ _ h2).2 _ hpop
        · rename_i st3 hpop
          have h3 := (populate_inv _ _ h2).1 _ hpop
          exact emit_inv_err h3 h

lemma renderDevices_ok (ds : List Device) : ∀ st st' : RenderState,
    renderDevices st ds = Except.ok st' →
    st'.buf = st.buf ++ strConcat (ds.map deviceXml) ∧
    st'.index = st.index + (strConcat (ds.map deviceXml)).length := by
  induction ds with
  | nil =>
      intro st st' h
      cases h
      simp [strConcat]
  | cons d rest ih =>
      intro st st' h
      simp only [renderDevices] at h
      split at h
      · cases h
      · rename_i st1 hd
        obtain ⟨hb1, hi1⟩ := renderDevice_ok hd
        obtain ⟨hb2, hi2⟩ := ih st1 st' h
        constructor
        · rw [hb2, hb1]
          simp [strConcat, String.append_assoc]
        · rw [hi2, hi1]
          simp [strConcat, String.length_append]
          omega

lemma renderDevices_inv (ds : List Device) : ∀ st : RenderState, InvR st →
    (∀ st', renderDevices st ds = Except.ok st' → InvR st') ∧
    (∀ b, renderDevices st ds = Except.error b → b.length < IIO_XML_SIZE) := by
  induction ds with
  | nil =>
      intro st hInv
      refine ⟨fun st' h => ?_, fun b h => ?_⟩
      · cases h; exact hInv
      · cases h
  | cons d rest ih =>
      intro st hInv
      constructor
      · intro st' h
        simp only [renderDevices] at h
        split at h
        · cases h
        · rename_i st1 hd
          exact (ih st1 ((renderDevice_inv hInv).1 _ hd)).1 st' h
      · intro b h
        simp only [renderDevices] at h
        split at h
        · cases h
          rename_i e hd
          exact (renderDevice_inv hInv).2 _ hd
        · rename_i st1 hd
          exact (ih st1 ((renderDevice_inv hInv).1 _ hd)).2 b h

/-! ### The whole document -/

lemma lit_merge (x : String) :
    "\" " ++ ("description=\"" ++ x) = "\" description=\"" ++ x := by
  rw [← String.append_assoc]
  rfl

lemma renderDoc_ok {n d : String} {devs : List Device} {s : String}
    (h : renderDoc n d devs = Except.ok s) :
    s = dtd ++ "<context name=\"" ++ n ++ "\" " ++ "description=\"" ++ d ++
        "\">" ++ strConcat (devs.map deviceXml) ++ "</context>" ∧
    s.length < IIO_XML_SIZE := by
  unfold renderDoc at h
  split at h
  · cases h
  · rename_i st0 h0
    split at h
    · cases h
    · rename_i st1 h1
      split at h
      · cases h
      · rename_i st2 h2
        split at h
        · cases h
        · rename_i st3 h3
          split at h
          · cases h
          · rename_i st4 h4
            cases h
            obtain ⟨hb0, hi0, _⟩ := emit_ok_eq h0
            obtain ⟨hb1, hi1, _⟩ := emit_ok_eq h1
            obtain ⟨hb2, hi2, _⟩ := emit_ok_eq h2
            obtain ⟨hb3, hi3⟩ := renderDevices_ok _ _ _ h3
            obtain ⟨hb4, hi4, hlt4⟩ := emit_ok_eq h4
            constructor
            · rw [hb4, hb3, hb2, hb1, hb0]
              simp [strConcat, String.append_assoc, String.append_empty,
                    String.empty_append, lit_merge]
            · have hsync : st4.index = st4.buf.length := by
                rw [hb4, hb3, hb2, hb1, hb0, hi4, hi3, hi2, hi1, hi0]
                simp [String.length_append]
              rw [← hsync]
              exact hlt4

lemma renderDoc_err {n d : String} {devs : List Device} {b : String}
    (h : renderDoc n d devs = Except.error b) : b.length < IIO_XML_SIZE := by
  have hInv0 : InvR ⟨0, ""⟩ := ⟨rfl, by decide⟩
  unfold renderDoc at h
  split at h
  · cases h
    rename_i e h0
    exact emit_inv_err hInv0 h0
  · rename_i st0 h0
    have hI0 := emit_inv_ok hInv0.1 h0
    split at h
    · cases h
      rename_i e h1
      exact emit_inv_err hI0 h1
    · rename_i st1 h1
      have hI1 := emit_inv_ok hI0.1 h1
      split at h
      · cases h
        rename_i e h2
        exact emit_inv_err hI1 h2
      · rename_i st2 h2
        have hI2 := emit_inv_ok hI1.1 h2
        split at h
        · cases h
          rename_i e h3
          exact (renderDevices_inv _ _ hI2).2 _ h3
        · rename_i st3 h3
          have hI3 := (renderDevices_inv _ _ hI2).1 _ h3
          split at h
          · cases h
            rename_i e h4
            exact emit_inv_err hI3 h4
          · rename_i st4 h4
            cases h

/-- When the full document does not fit, renderDoc cannot succeed. -/
lemma renderDoc_oversized {n d : String} {devs : List Device}
    (h : IIO_XML_SIZE ≤ (dtd ++ "<context name=\"" ++ n ++ "\" " ++
        "description=\"" ++ d ++ "\">" ++ strConcat (devs.map deviceXml) ++
        "</context>").length) :
    ∀ s, renderDoc n d devs ≠ Except.ok s := by
  intro s hok
  obtain ⟨hs, hlt⟩ := renderDoc_ok hok
  rw [hs] at hlt
  omega

/-! ### Registration lemmas -/

lemma regScanAttr_fresh (nm : String) : ∀ (as : List Attribute) (k : Nat),
    (∀ a ∈ as, a.name ≠ nm) → regScanAttr nm as k = some (k + as.length) := by
  intro as
  induction as with
  | nil => intro k _; simp [regScanAttr]
  | cons a rest ih =>
      intro k h
      have ha : a.name ≠ nm := h a (by simp)
      simp only [regScanAttr, if_neg ha]
      rw [ih (k + 1) (fun b hb => h b (by simp [hb]))]
      simp
      omega

lemma regScanAttr_dup (nm : String) : ∀ (as : List Attribute) (k : Nat),
    (∃ a ∈ as, a.name = nm) → regScanAttr nm as k = none := by
  intro as
  induction as with
  | nil => rintro k ⟨a, ha, _⟩; cases ha
  | cons a rest ih =>
      rintro k ⟨b, hb, hname⟩
      by_cases hfirst : a.name = nm
      · simp [regScanAttr, hfirst]
      · have hbrest : b ∈ rest := by
          cases hb with
          | head => exact absurd hname hfirst
          | tail _ h => exact h
        simp only [regScanAttr, if_neg hfirst]
        exact ih (k + 1) ⟨b, hbrest, hname⟩

/-- A fresh name appends at the tail and reports the 1-based position. -/
lemma iio_register_attribute_fresh (attr : Attribute) (list : List Attribute)
    (h : ∀ a ∈ list, a.name ≠ attr.name) :
    iio_register_attribute attr list = ((list.length : Int) + 1, list ++ [attr]) := by
  cases list with
  | nil => simp [iio_register_attribute]
  | cons b rest =>
      simp only [iio_register_attribute]
      rw [regScanAttr_fresh attr.name (b :: rest) 0 h]
      simp

/-- A duplicate name is rejected with -EINVAL and the list is unchanged. -/
lemma iio_register_attribute_dup (attr : Attribute) (list : List Attribute)
    (h : ∃ a ∈ list, a.name = attr.name) :
    iio_register_attribute attr list = (-EINVAL, list) := by
  cases list with
  | nil => obtain ⟨a, ha, _⟩ := h; cases ha
  | cons b rest =>
      simp only [iio_register_attribute]
      rw [regScanAttr_dup attr.name (b :: rest) 0 h]

lemma registerFold_go (attrs : List Attribute) : ∀ acc : List Attribute,
    (∀ a ∈ attrs, ∀ b ∈ acc, b.name ≠ a.name) →
    attrs.Pairwise (fun a b => a.name ≠ b.name) →
    registerFold acc attrs = acc ++ attrs ∧
    registerCodes acc attrs =
      (List.range attrs.length).map (fun i => ((acc.length + i : Nat) : Int) + 1) := by
  induction attrs with
  | nil => intro acc _ _; simp [registerFold, registerCodes]
  | cons a rest ih =>
      intro acc hfresh hpw
      have hstep := iio_register_attribute_fresh a acc
        (fun b hb => hfresh a (by simp) b hb)
      have hfresh2 : ∀ x ∈ rest, ∀ b ∈ acc ++ [a], b.name ≠ x.name := by
        intro x hx b hb
        rcases List.mem_append.1 hb with hb1 | hb2
        · exact hfresh x (by simp [hx]) b hb1
        · have : b = a := by simpa using hb2
          subst this
          exact (List.pairwise_cons.1 hpw).1 x hx
      have hpw2 := (List.pairwise_cons.1 hpw).2
      obtain ⟨hf, hc⟩ := ih (acc ++ [a]) hfresh2 hpw2
      constructor
      · simp only [registerFold, hstep, hf]
        simp
      · simp only [registerCodes, hstep, hc]
        simp only [List.length_cons]
        rw [List.range_succ_eq_map]
        simp only [List.length_cons, List.map_cons, List.map_map]
        congr 1
        apply List.map_congr_left
        intro i _
        simp only [Function.comp_apply, List.length_append, List.length_cons,
          List.length_nil]
        omega

/-! ### atoi and device lookup -/

lemma atoi_malformed {s : String} (h : malformedId s = true) : atoi s = 0 := by
  unfold atoi
  unfold malformedId at h
  split
  · rename_i cs hs
    rw [hs] at h
    cases cs with
    | nil => simp [atoiDigits]
    | cons d rest =>
        simp at h
        simp [atoiDigits, h]
  · rename_i cs hs
    rw [hs] at h
    cases cs with
    | nil => simp [atoiDigits]
    | cons d rest =>
        simp at h
        simp [atoiDigits, h]
  · rename_i hne1 hne2
    cases hcs : skipSpaces s.data with
    | nil => simp [hcs, atoiDigits]
    | cons c rest =>
        rw [hcs] at h
        have hcminus : c ≠ '-' := by
          intro hc; subst hc; exact hne1 rest hcs
        have hcplus : c ≠ '+' := by
          intro hc; subst hc; exact hne2 rest hcs
        simp [hcminus, hcplus] at h
        simp [hcs, atoiDigits, h]

lemma findDevice_atoi_congr {s t : String} (h : atoi s = atoi t) :
    ∀ l : List Device, findDevice s l = findDevice t l := by
  intro l
  induction l with
  | nil => rfl
  | cons d ds ih => simp [findDevice, devMatch, h, ih]

/-! ## Claim theorems -/

/-- C1: the claim states that iio_register_device appends a device whose
name and numeric id are both fresh and returns its 1-based position,
failing only on a genuine identity conflict.  The code's uniqueness scan
tests `IIO_ID(dev) == IIO_ID(dev)`, comparing each existing device's id
with itself, so every registration into a non-empty registry is rejected.
devAdc and devDac have distinct names ("adc"/"dac") and distinct ids
(0/1), yet registering devDac into the registry holding devAdc returns
-EINVAL and leaves the registry unchanged, contradicting the claim. -/
theorem iio_register_device_self_compare_bug :
    iio_register_device devDac [devAdc] = (-EINVAL, [devAdc]) ∧
    devAdc.name ≠ devDac.name ∧ devAdc.id ≠ devDac.id :=
  ⟨rfl, by decide, by decide⟩

/-- C4: registering attributes with pairwise-distinct names into an
initially empty collection succeeds at every step, growing the collection
by exactly one element per call (the final collection is the registered
sequence itself) with each call returning the new element's 1-based
position (1, 2, 3, ...); a registration whose name is already present
returns -EINVAL (the code's DuplicateKey) and leaves the collection
unchanged, while a fresh name appends at the tail and returns the new
length.  The -ENOENT-free result is independent of any accessor. -/
theorem iio_register_attribute_spec
    (attrs : List Attribute) (attr : Attribute) (list : List Attribute) :
    (attrs.Pairwise (fun a b => a.name ≠ b.name) →
       registerFold [] attrs = attrs ∧
       registerCodes [] attrs =
         (List.range attrs.length).map (fun (i : Nat) => (i : Int) + 1)) ∧
    ((∀ a ∈ list, a.name ≠ attr.name) →
       iio_register_attribute attr list =
         ((list.length : Int) + 1, list ++ [attr])) ∧
    ((∃ a ∈ list, a.name = attr.name) →
       iio_register_attribute attr list = (-EINVAL, list)) := by
  refine ⟨fun hpw => ?_, iio_register_attribute_fresh attr list,
    iio_register_attribute_dup attr list⟩
  obtain ⟨hf, hc⟩ := registerFold_go attrs [] (by simp) hpw
  refine ⟨by simpa using hf, ?_⟩
  rw [hc]
  simp only [List.length_nil, Nat.zero_add]

/-- Witness for C4: three distinct names "a", "b", "c" registered from
the empty collection give back the codes 1, 2, 3 and the collection in
order; re-registering "a" is rejected with the collection unchanged. -/
theorem iio_register_attribute_spec_witness :
    (registerFold [] [⟨"a"⟩, ⟨"b"⟩, ⟨"c"⟩] = [⟨"a"⟩, ⟨"b"⟩, ⟨"c"⟩] ∧
     registerCodes [] [⟨"a"⟩, ⟨"b"⟩, ⟨"c"⟩] = [1, 2, 3]) ∧
    iio_register_attribute ⟨"a"⟩ [⟨"a"⟩] = (-EINVAL, [⟨"a"⟩]) :=
  ⟨(iio_register_attribute_spec [⟨"a"⟩, ⟨"b"⟩, ⟨"c"⟩] ⟨"a"⟩ []).1 (by decide),
   (iio_register_attribute_spec [⟨"a"⟩, ⟨"b"⟩, ⟨"c"⟩] ⟨"a"⟩ [⟨"a"⟩]).2.2
     (by decide)⟩

/-- C5: read_attr returns -ENOENT (the code's encoding of both
NoSuchDevice and NoSuchAttribute, per the comments at its two failure
returns) when no registered device matches the parsed id, and likewise
when the device matches but the attribute name is not in its collection.
The context, hence every accessor table, is universally quantified and
the result is the constant -ENOENT, so no accessor output can reach the
caller: no accessor is invoked. -/
theorem read_attr_missing_cases (ctx : Context) (device attr : String)
    (len ty : Nat) :
    (findDevice device ctx.devices = none →
       read_attr ctx device attr len ty = -ENOENT) ∧
    (∀ dev, findDevice device ctx.devices = some dev →
       findAttr attr dev.attrs = none →
       read_attr ctx device attr len ty = -ENOENT) := by
  constructor
  · intro h
    simp [read_attr, h]
  · intro dev h1 h2
    simp [read_attr, h1, h2]

/-- Witness for C5: a registry holding only device id 1 with attribute
"freq": id 5 yields -ENOENT (no such device), and a missing attribute on
device 1 yields -ENOENT (no such attribute), accessor untouched. -/
theorem read_attr_missing_cases_witness :
    read_attr ctxFreq "5" "sample_rate" 4 0 = -ENOENT ∧
    read_attr ctxFreq "1" "missing" 4 0 = -ENOENT :=
  ⟨(read_attr_missing_cases ctxFreq "5" "sample_rate" 4 0).1 rfl,
   (read_attr_missing_cases ctxFreq "1" "missing" 4 0).2 devFreq rfl rfl⟩

/-- C7: once the device (and for channel/attribute operations the channel
and attribute) is resolved, each dispatch operation returns -ENOSYS when
the matching accessor slot is null, and otherwise returns verbatim the
value of the accessor applied to the device's opaque data handle and the
semantic arguments.  All six operations are covered. -/
theorem dispatch_accessor_slots (ctx : Context) (dstr : String) (dev : Device)
    (hdev : findDevice dstr ctx.devices = some dev) :
    (∀ (attr : String) (a : Attribute) (len ty : Nat),
       findAttr attr dev.attrs = some a →
       read_attr ctx dstr attr len ty =
         (match dev.attr_accessors.read_attr with
          | none => -ENOSYS
          | some f => f dev.data attr len ty) ∧
       ∀ buf, write_attr ctx dstr attr buf len ty =
         (match dev.attr_accessors.write_attr with
          | none => -ENOSYS
          | some g => g dev.data attr buf len ty)) ∧
    (∀ (channel : String) (chn : Channel) (out : Bool) (attr : String)
       (a : Attribute) (len : Nat),
       findChannel channel dev.channels = some chn →
       findAttr attr chn.attrs = some a →
       ch_read_attr ctx dstr channel out attr len =
         (match dev.chn_accessors.read_attr with
          | none => -ENOSYS
          | some f => f dev.data channel out attr len) ∧
       ∀ buf, ch_write_attr ctx dstr channel out attr buf len =
         (match dev.chn_accessors.write_attr with
          | none => -ENOSYS
          | some g => g dev.data channel out attr buf len)) ∧
    (∀ off cnt : Nat,
       read_data ctx dstr off cnt =
         (match dev.chn_accessors.read_data with
          | none => -ENOSYS
          | some f => f dev.data off cnt) ∧
       ∀ buf, write_data ctx dstr buf off cnt =
         (match dev.chn_accessors.write_data with
          | none => -ENOSYS
          | some g => g dev.data buf off cnt)) := by
  refine ⟨fun attr a len ty ha => ⟨?_, fun buf => ?_⟩,
          fun channel chn out attr a len hc ha => ⟨?_, fun buf => ?_⟩,
          fun off cnt => ⟨?_, fun buf => ?_⟩⟩
  · simp [read_attr, hdev, ha]
  · simp [write_attr, hdev, ha]
  · simp [ch_read_attr, hdev, hc, ha]
  · simp [ch_write_attr, hdev, hc, ha]
  · simp [read_data, hdev]
  · simp [write_data, hdev]

/-- Witness for C7 on a device with read slots installed (returning 21,
22, 23) and write slots null: reads return the accessor values verbatim,
writes return -ENOSYS. -/
theorem dispatch_accessor_slots_witness :
    read_attr ctxSlots "1" "a" 4 0 = 21 ∧
    write_attr ctxSlots "1" "a" "v" 4 0 = -ENOSYS ∧
    ch_read_attr ctxSlots "1" "c0" true "b" 4 = 22 ∧
    ch_write_attr ctxSlots "1" "c0" true "b" "v" 4 = -ENOSYS ∧
    read_data ctxSlots "1" 0 8 = 23 ∧
    write_data ctxSlots "1" "v" 0 8 = -ENOSYS := by
  have h := dispatch_accessor_slots ctxSlots "1" devSlots rfl
  have ha := h.1 "a" ⟨"a"⟩ 4 0 rfl
  have hc := h.2.1 "c0" ⟨"c0", "output", [⟨"b"⟩]⟩ true "b" ⟨"b"⟩ 4 rfl rfl
  have hd := h.2.2 0 8
  exact ⟨ha.1, ha.2 "v", hc.1, hc.2 "v", hd.1, hd.2 "v"⟩

/-- Helper for C10: a request string longer than the name bound can never
match a stored (bounded) attribute name, since every stored name is at
most ATTR_NAME_MAX_SIZE characters. -/
lemma findAttr_long_none (n1 : String) (list : List Attribute)
    (hlong : ATTR_NAME_MAX_SIZE < n1.data.length)
    (hbound : ∀ a ∈ list, a.name.data.length ≤ ATTR_NAME_MAX_SIZE) :
    findAttr n1 list = none := by
  revert hbound
  induction list with
  | nil => intro _; rfl
  | cons a rest ih =>
      intro hbound
      have hne : a.name ≠ n1 := by
        intro he
        have hb := hbound a (by simp)
        rw [he] at hb
        omega
      simp only [findAttr, if_neg hne]
      exact ih (fun b hb => hbound b (by simp [hb]))

/-- C2 (amended): ch_read_attr and ch_write_attr resolve the channel by
its id string alone; the ch_out flag takes no part in resolution and is
passed through to the accessor.  In particular a request with ch_out
arbitrary (including true) against a channel registered with type
"input" resolves that channel and invokes the installed accessor instead
of failing with NoSuchChannel. -/
theorem ch_attr_ignores_direction (ctx : Context)
    (device channel attr buf : String) (out : Bool) (len : Nat)
    (dev : Device) (chn : Channel) (a : Attribute)
    (hdev : findDevice device ctx.devices = some dev)
    (hchn : findChannel channel dev.channels = some chn)
    (hin : chn.type = "input")
    (ha : findAttr attr chn.attrs = some a) :
    (∀ f, dev.chn_accessors.read_attr = some f →
       ch_read_attr ctx device channel out attr len =
         f dev.data channel out attr len) ∧
    (∀ g, dev.chn_accessors.write_attr = some g →
       ch_write_attr ctx device channel out attr buf len =
         g dev.data channel out attr buf len) := by
  constructor
  · intro f hf
    simp [ch_read_attr, hdev, hchn, ha, hf]
  · intro g hg
    simp [ch_write_attr, hdev, hchn, ha, hg]

/-- Witness for C2 (amended): the input channel "voltage0" with attribute
"scale" is resolved by a request flagged ch_out = true, and the channel
accessors (returning 7 and 8) are invoked. -/
theorem ch_attr_ignores_direction_witness :
    ch_read_attr ctxChan "0" "voltage0" true "scale" 8 = 7 ∧
    ch_write_attr ctxChan "0" "voltage0" true "scale" "v" 8 = 8 := by
  have h := ch_attr_ignores_direction ctxChan "0" "voltage0" "scale" "v" true 8
    devChan chnVolt ⟨"scale"⟩ rfl rfl rfl rfl
  exact ⟨h.1 _ rfl, h.2 _ rfl⟩

/-- Counterexample to C2 as stated: on the registry whose device 0 has the
input channel "voltage0" carrying attribute "scale", a request with
ch_out = true does not return -ENOENT (NoSuchChannel); the accessor runs
and its values 7 and 8 are returned. -/
theorem ch_attr_direction_cex :
    ch_read_attr ctxChan "0" "voltage0" true "scale" 8 ≠ -ENOENT ∧
    ch_write_attr ctxChan "0" "voltage0" true "scale" "v" 8 ≠ -ENOENT := by
  decide

/-- C6 (amended): a malformed (non-numeric) textual device identifier is
parsed by atoi as the number 0, so every dispatch operation treats it
exactly as the identifier "0": it fails with -ENOENT (NoSuchDevice) when
no registered device has numeric id 0, but resolves against a registered
id-0 device when one exists. -/
theorem malformed_id_as_zero (ctx : Context) (s attr channel buf : String)
    (out : Bool) (len ty off cnt : Nat)
    (hm : malformedId s = true) :
    (read_attr ctx s attr len ty = read_attr ctx "0" attr len ty ∧
     write_attr ctx s attr buf len ty = write_attr ctx "0" attr buf len ty ∧
     ch_read_attr ctx s channel out attr len =
       ch_read_attr ctx "0" channel out attr len ∧
     ch_write_attr ctx s channel out attr buf len =
       ch_write_attr ctx "0" channel out attr buf len ∧
     read_data ctx s off cnt = read_data ctx "0" off cnt ∧
     write_data ctx s buf off cnt = write_data ctx "0" buf off cnt) ∧
    (findDevice "0" ctx.devices = none →
       read_attr ctx s attr len ty = -ENOENT ∧
       write_attr ctx s attr buf len ty = -ENOENT ∧
       ch_read_attr ctx s channel out attr len = -ENOENT ∧
       ch_write_attr ctx s channel out attr buf len = -ENOENT ∧
       read_data ctx s off cnt = -ENOENT ∧
       write_data ctx s buf off cnt = -ENOENT) := by
  have hz : atoi s = atoi "0" := by
    rw [atoi_malformed hm]
    decide
  have hfd := findDevice_atoi_congr hz ctx.devices
  constructor
  · exact ⟨by simp [read_attr, hfd], by simp [write_attr, hfd],
      by simp [ch_read_attr, hfd], by simp [ch_write_attr, hfd],
      by simp [read_data, hfd], by simp [write_data, hfd]⟩
  · intro hnone
    have hs := hfd.trans hnone
    exact ⟨by simp [read_attr, hs], by simp [write_attr, hs],
      by simp [ch_read_attr, hs], by simp [ch_write_attr, hs],
      by simp [read_data, hs], by simp [write_data, hs]⟩

/-- Witness for C6 (amended): on a registry whose only device has id 1,
the malformed identifier "abc" behaves as "0" and read_attr fails with
-ENOENT. -/
theorem malformed_id_as_zero_witness :
    read_attr ctxFreq "abc" "freq" 4 0 = read_attr ctxFreq "0" "freq" 4 0 ∧
    read_attr ctxFreq "abc" "freq" 4 0 = -ENOENT := by
  have h := malformed_id_as_zero ctxFreq "abc" "freq" "c" "v" true 4 0 0 8
    (by decide)
  exact ⟨h.1.1, (h.2 rfl).1⟩

/-- Counterexample to C6 as stated: the registry ctxZero contains a device
with numeric id 0; the malformed identifier "abc" parses to 0 and
resolves against that device, invoking its accessors (values 5 and 6)
instead of failing with NoSuchDevice. -/
theorem malformed_id_cex :
    read_attr ctxZero "abc" "x" 4 0 = 5 ∧
    read_data ctxZero "abc" 0 8 = 6 ∧
    (5 : Int) ≠ -ENOENT := by
  decide

/-- C10 (amended): attribute names are silently truncated to
ATTR_NAME_MAX_SIZE (32) characters at creation; two requested names that
agree on their first 32 characters produce the same stored name, so
registering the second into a collection containing the first fails as a
duplicate (-EINVAL, collection unchanged).  However, a lookup using a
full name longer than 32 characters matches no stored (bounded) name:
only the truncated 32-character form resolves. -/
theorem attr_name_truncation (n1 n2 : String) (list : List Attribute) :
    ((iio_new_static_attribute n1).name = strncpyTrunc n1 ATTR_NAME_MAX_SIZE) ∧
    (strncpyTrunc n1 ATTR_NAME_MAX_SIZE = strncpyTrunc n2 ATTR_NAME_MAX_SIZE →
       iio_new_static_attribute n1 ∈ list →
       iio_register_attribute (iio_new_static_attribute n2) list =
         (-EINVAL, list)) ∧
    (ATTR_NAME_MAX_SIZE < n1.data.length →
       (∀ a ∈ list, a.name.data.length ≤ ATTR_NAME_MAX_SIZE) →
       findAttr n1 list = none) := by
  refine ⟨rfl, ?_, findAttr_long_none n1 list⟩
  intro h hmem
  apply iio_register_attribute_dup
  exact ⟨iio_new_static_attribute n1, hmem,
    by simpa [iio_new_static_attribute] using h⟩

/-- Witness for C10 (amended): two 33-character names differing only in
the last character collide at registration; the full 33-character name
matches nothing in the collection holding its truncation. -/
theorem attr_name_truncation_witness :
    strncpyTrunc longName ATTR_NAME_MAX_SIZE =
      strncpyTrunc longName2 ATTR_NAME_MAX_SIZE ∧
    iio_register_attribute (iio_new_static_attribute longName2)
      [iio_new_static_attribute longName] =
      (-EINVAL, [iio_new_static_attribute longName]) ∧
    findAttr longName [iio_new_static_attribute longName] = none := by
  have h := attr_name_truncation longName longName2
    [iio_new_static_attribute longName]
  exact ⟨by decide, h.2.1 (by decide) (by decide), h.2.2 (by decide) (by decide)⟩

/-- Counterexample to C10 as stated: the stored attribute was created
from the 33-character longName; a read_attr lookup with that full name
returns -ENOENT instead of resolving to the stored attribute, while the
32-character truncation does resolve (accessor value 7). -/
theorem attr_name_truncation_cex :
    read_attr ctxTrunc "1" longName 4 0 = -ENOENT ∧
    read_attr ctxTrunc "1" (strncpyTrunc longName ATTR_NAME_MAX_SIZE) 4 0 = 7 ∧
    -ENOENT ≠ (7 : Int) := by
  decide

/-- C3 (amended): when the serialized document would reach IIO_XML_SIZE,
generate_xml does not complete: it dies on one of its assert(index <
IIO_XML_SIZE) checks (no Overflow error value exists in the code).  Each
assertion fires before the corresponding strcat batch, so the buffer
never holds IIO_XML_SIZE or more characters — but at the abort it holds
the partially written document, not its previous or empty contents. -/
theorem generate_xml_overflow (ctx : Context) :
    (IIO_XML_SIZE ≤ (specDoc ctx).length →
       isOkE (generate_xml ctx) = false) ∧
    (resultCtx (generate_xml ctx)).xml.length < IIO_XML_SIZE := by
  constructor
  · intro hbig
    cases hr : renderDoc ctx.name ctx.description ctx.devices with
    | error e => simp [generate_xml, hr, isOkE]
    | ok s =>
        exfalso
        obtain ⟨hs, hlt⟩ := renderDoc_ok hr
        unfold specDoc at hbig
        rw [← hs] at hbig
        omega
  · cases hr : renderDoc ctx.name ctx.description ctx.devices with
    | ok s =>
        have hlen := (renderDoc_ok hr).2
        simp [generate_xml, hr, resultCtx]
        exact hlen
    | error e =>
        have hlen := renderDoc_err hr
        simp [generate_xml, hr, resultCtx]
        exact hlen

lemma strConcat_length (l : List String) :
    (strConcat l).length = (l.map String.length).sum := by
  induction l with
  | nil => rfl
  | cons s ss ih => simp [strConcat, String.length_append, ih]

/-- The oversized registry's document length, computed through the length
homomorphisms so that only short strings are ever evaluated. -/
lemma specDoc_ctxBig_large : IIO_XML_SIZE ≤ (specDoc ctxBig).length := by
  unfold specDoc ctxBig devBig
  simp only [String.length_append, strConcat_length, List.map_cons,
    List.map_nil, List.sum_cons, List.sum_nil, deviceXml]
  decide

/-- An assertion failure hands back the buffer it received, so every
failing run's buffer extends the state it started from. -/
lemma emit_err_ext {st : RenderState} {ps : List String} {b : String}
    (h : emit st ps = Except.error b) : ∃ t, b = st.buf ++ t :=
  ⟨"", by rw [emit_err_eq h, String.append_empty]⟩

lemma populate_err_ext (as : List Attribute) : ∀ (st : RenderState) (b : String),
    populate_attributes st as = Except.error b → ∃ t, b = st.buf ++ t := by
  induction as with
  | nil => intro st b h; cases h
  | cons a rest ih =>
      intro st b h
      simp only [populate_attributes] at h
      split at h
      · cases h
        rename_i e hemit
        exact emit_err_ext hemit
      · rename_i st1 hemit
        obtain ⟨t, ht⟩ := ih st1 b h
        obtain ⟨hb, _, _⟩ := emit_ok_eq hemit
        exact ⟨_, by rw [ht, hb, String.append_assoc]⟩

lemma renderChannel_err_ext {st : RenderState} {c : Channel} {b : String}
    (h : renderChannel st c = Except.error b) : ∃ t, b = st.buf ++ t := by
  unfold renderChannel at h
  split at h
  · cases h
    rename_i e hemit
    exact emit_err_ext hemit
  · rename_i st1 hemit
    obtain ⟨hb1, _, _⟩ := emit_ok_eq hemit
    split at h
    · cases h
      rename_i e hpop
      obtain ⟨t, ht⟩ := populate_err_ext _ _ _ hpop
      exact ⟨_, by rw [ht, hb1, String.append_assoc]⟩
    · rename_i st2 hpop
      obtain ⟨hb2, _⟩ := populate_ok _ _ _ hpop
      obtain ⟨t, ht⟩ := emit_err_ext h
      exact ⟨_, by rw [ht, hb2, hb1, String.append_assoc, String.append_assoc]⟩

lemma renderChannels_err_ext (cs : List Channel) :
    ∀ (st : RenderState) (b : String),
    renderChannels st cs = Except.error b → ∃ t, b = st.buf ++ t := by
  induction cs with
  | nil => intro st b h; cases h
  | cons c rest ih =>
      intro st b h
      simp only [renderChannels] at h
      split at h
      · cases h
        rename_i e hc
        exact renderChannel_err_ext hc
      · rename_i st1 hc
        obtain ⟨t, ht⟩ := ih st1 b h
        obtain ⟨hb, _⟩ := renderChannel_ok hc
        exact ⟨_, by rw [ht, hb, String.append_assoc]⟩

lemma renderDevice_err_ext {st : RenderState} {d : Device} {b : String}
    (h : renderDevice st d = Except.error b) : ∃ t, b = st.buf ++ t := by
  unfold renderDevice at h
  split at h
  · cases h
    rename_i e hemit
    exact emit_err_ext hemit
  · rename_i st1 hemit
    obtain ⟨hb1, _, _⟩ := emit_ok_eq hemit
    split at h
    · cases h
      rename_i e hchn
      obtain ⟨t, ht⟩ := renderChannels_err_ext _ _ _ hchn
      exact ⟨_, by rw [ht, hb1, String.append_assoc]⟩
    · rename_i st2 hchn
      obtain ⟨hb2, _⟩ := renderChannels_ok _ _ _ hchn
      split at h
      · cases h
        rename_i e hpop
        obtain ⟨t, ht⟩ := populate_err_ext _ _ _ hpop
        exact ⟨_, by rw [ht, hb2, hb1, String.append_assoc, String.append_assoc]⟩
      · rename_i st3 hpop
        obtain ⟨hb3, _⟩ := populate_ok _ _ _ hpop
        obtain ⟨t, ht⟩ := emit_err_ext h
        exact ⟨_, by rw [ht, hb3, hb2, hb1, String.append_assoc,
          String.append_assoc, String.append_assoc]⟩

lemma renderDevices_err_ext (ds : List Device) :
    ∀ (st : RenderState) (b : String),
    renderDevices st ds = Except.error b → ∃ t, b = st.buf ++ t := by
  induction ds with
  | nil => intro st b h; cases h
  | cons d rest ih =>
      intro st b h
      simp only [renderDevices] at h
      split at h
      · cases h
        rename_i e hd
        exact renderDevice_err_ext hd
      · rename_i st1 hd
        obtain ⟨t, ht⟩ := ih st1 b h
        obtain ⟨hb, _⟩ := renderDevice_ok hd
        exact ⟨_, by rw [ht, hb, String.append_assoc]⟩

/-- A failing render either died on the very first assertion (possible
only if the DTD itself already fills the buffer) or its buffer starts
with the DTD: it has been partially overwritten. -/
lemma renderDoc_err_ext {n d : String} {devs : List Device} {b : String}
    (h : renderDoc n d devs = Except.error b) :
    IIO_XML_SIZE ≤ (strConcat [dtd]).length ∨ ∃ t, b = dtd ++ t := by
  unfold renderDoc at h
  split at h
  · cases h
    rename_i e h0
    unfold emit at h0
    split at h0
    · cases h0
    · rename_i hge
      left
      simp at hge
      omega
  · rename_i st0 h0
    obtain ⟨hb0, _, _⟩ := emit_ok_eq h0
    have hpre : st0.buf = dtd ++ "" := by
      rw [hb0, String.empty_append]
      simp [strConcat]
    refine Or.inr ?_
    split at h
    · cases h
      rename_i e h1
      obtain ⟨t, ht⟩ := emit_err_ext h1
      exact ⟨_, by rw [ht, hpre, String.append_assoc]⟩
    · rename_i st1 h1
      obtain ⟨hb1, _, _⟩ := emit_ok_eq h1
      split at h
      · cases h
        rename_i e h2
        obtain ⟨t, ht⟩ := emit_err_ext h2
        exact ⟨_, by rw [ht, hb1, hpre, String.append_assoc,
          String.append_assoc]⟩
      · rename_i st2 h2
        obtain ⟨hb2, _, _⟩ := emit_ok_eq h2
        split at h
        · cases h
          rename_i e h3
          obtain ⟨t, ht⟩ := renderDevices_err_ext _ _ _ h3
          exact ⟨_, by rw [ht, hb2, hb1, hpre, String.append_assoc,
            String.append_assoc, String.append_assoc]⟩
        · rename_i st3 h3
          obtain ⟨hb3, _⟩ := renderDevices_ok _ _ _ h3
          split at h
          · cases h
            rename_i e h4
            obtain ⟨t, ht⟩ := emit_err_ext h4
            exact ⟨_, by rw [ht, hb3, hb2, hb1, hpre, String.append_assoc,
              String.append_assoc, String.append_assoc, String.append_assoc]⟩
          · rename_i st4 h4
            cases h

/-- Witness for C3 (amended): ctxBig's document needs more than the
3072-byte buffer, and generate_xml indeed fails to complete. -/
theorem generate_xml_overflow_witness :
    IIO_XML_SIZE ≤ (specDoc ctxBig).length ∧
    isOkE (generate_xml ctxBig) = false :=
  ⟨specDoc_ctxBig_large, (generate_xml_overflow ctxBig).1 specDoc_ctxBig_large⟩

/-- Counterexample to C3 as stated: on the oversized registry ctxBig
(previous buffer contents "previous"), rendering does not return an
Overflow result — it aborts, leaving the buffer partially overwritten:
the abandoned buffer starts with the 809-character DTD, so it is neither
empty nor the previous 8-character contents. -/
theorem generate_xml_overflow_cex :
    isOkE (generate_xml ctxBig) = false ∧
    (resultCtx (generate_xml ctxBig)).xml ≠ "" ∧
    (resultCtx (generate_xml ctxBig)).xml ≠ ctxBig.xml := by
  cases hr : renderDoc ctxBig.name ctxBig.description ctxBig.devices with
  | ok s =>
      exfalso
      obtain ⟨hs, hlt⟩ := renderDoc_ok hr
      have hbig := specDoc_ctxBig_large
      unfold specDoc at hbig
      rw [← hs] at hbig
      omega
  | error e =>
      have hx : (resultCtx (generate_xml ctxBig)).xml = e := by
        simp [generate_xml, hr, resultCtx]
      have hdtd : ¬ IIO_XML_SIZE ≤ (strConcat [dtd]).length := by decide
      have hext := (renderDoc_err_ext hr).resolve_left hdtd
      obtain ⟨t, ht⟩ := hext
      have hlen : 809 ≤ e.length := by
        rw [ht, String.length_append]
        have : dtd.length = 809 := by decide
        omega
      refine ⟨by simp [generate_xml, hr, isOkE], ?_, ?_⟩
      · rw [hx]
        intro he
        rw [he] at hlen
        simp at hlen
      · rw [hx]
        intro he
        have h8 : (ctxBig.xml).length = 8 := by decide
        rw [he] at hlen
        omega

/-- C8: a successful render produces exactly the fixed preamble, then the
context element, then one device element per registered device in
registration order (specDoc maps deviceXml over ctx.devices in list
order, so for devices registered A then B, A's element occurs strictly
before B's); inside each device element the channels come first in their
registration order, each with its attributes in order, followed by the
device's own attributes in order (the shape of deviceXml/channelXml). -/
theorem generate_xml_order (ctx c : Context)
    (h : generate_xml ctx = Except.ok c) : c.xml = specDoc ctx := by
  unfold generate_xml at h
  cases hr : renderDoc ctx.name ctx.description ctx.devices with
  | error e => rw [hr] at h; cases h
  | ok s =>
      rw [hr] at h
      cases h
      have hs := (renderDoc_ok hr).1
      simpa [specDoc] using hs

/-- Witness for C8: the two-device registry ctxOrder (devices "alpha"
then "beta") renders to its specDoc, with alpha's element before
beta's. -/
theorem generate_xml_order_witness :
    (resultCtx (generate_xml ctxOrder)).xml = specDoc ctxOrder :=
  generate_xml_order ctxOrder (resultCtx (generate_xml ctxOrder)) rfl

/-- The renderer reads only the name, description and device fields of
the context, never the previous buffer contents. -/
lemma generate_xml_update (ctx : Context) (s : String) :
    generate_xml { ctx with xml := s } =
      match renderDoc ctx.name ctx.description ctx.devices with
      | Except.ok t => Except.ok { ctx with xml := t }
      | Except.error e => Except.error { ctx with xml := e } := rfl

/-- C9: rendering is deterministic and idempotent.  generate_xml is a
function of the registry content alone (the previous buffer contents are
overwritten, never read), so rendering a context that was itself just
rendered succeeds and reproduces the identical context — in particular
the two documents are byte-identical. -/
theorem generate_xml_idempotent (ctx c : Context)
    (h : generate_xml ctx = Except.ok c) :
    generate_xml c = Except.ok c := by
  unfold generate_xml at h
  cases hr : renderDoc ctx.name ctx.description ctx.devices with
  | error e => rw [hr] at h; cases h
  | ok s =>
      rw [hr] at h
      cases h
      rw [generate_xml_update ctx s, hr]

/-- Witness for C9: rendering ctxOrder once and then rendering the result
again returns the very same context (same document bytes). -/
theorem generate_xml_idempotent_witness :
    generate_xml (resultCtx (generate_xml ctxOrder)) =
      Except.ok (resultCtx (generate_xml ctxOrder)) :=
  generate_xml_idempotent ctxOrder (resultCtx (generate_xml ctxOrder)) rfl
